import Mathlib

/-!
Verification development for the `database` repository (a Python database
convenience layer).  The Python modules are shallowly embedded: each Python
function of `core.py` that the properties mention is translated into an
executable Lean definition over an explicit model of the Python values it
manipulates, and the properties are proved (or refuted) about those
definitions.
-/

set_option autoImplicit false

namespace Database

/-- A single quote character (ASCII 39). -/
def squoteChar : Char := Char.ofNat 39

/-- A single quote, as a string. -/
def squote : String := String.singleton squoteChar

/-- Python `s.replace(old, new)` for a one-character pattern `old`, which is the
only form the source uses (`val.replace(squote, squote ++ squote)` in
`_cellval2str`, core.py line 167): every occurrence of the character is replaced
by `rep`. -/
def replaceChar (c : Char) (rep : String) (s : String) : String :=
  String.mk (s.data.foldr (fun a acc => if a = c then rep.data ++ acc else a :: acc) [])

/-- Model of the Python scalar values that can reach `_cellval2str`
(core.py lines 155-174).  The constructors partition values by exactly the
dynamic tests the source performs, in particular:
* `pystr` / `uni` are `str` / `unicode` text (both satisfy
  `isinstance(val, str) or isinstance(val, unicode)`);
* `num` is a value on which `float(val)` succeeds and which is not text
  (int / float / bool); `rep` is its Python `str(val)` text;
* `date` is a value exposing a `.day` attribute (`datetime.date` /
  `datetime.datetime`); a plain date carries zero hour/minute/second, which
  yields the same formatting as the source's `except AttributeError` path in
  `date2str`;
* `other` is any remaining value; `rep` is its Python `str(val)` text. -/
inductive PyVal where
  | pynone
  | pystr (s : String)
  | uni (s : String)
  | num (rep : String)
  | date (month day year hour minute second : Nat)
  | other (rep : String)
deriving DecidableEq, Repr

/-- `val is None` (core.py line 164). -/
def isNoneVal : PyVal → Bool
  | .pynone => true
  | _ => false

/-- Python `val == "NULL"` (core.py line 164): true exactly for the text values
`str "NULL"` and `unicode u"NULL"`; `==` between a non-text object and a string
is `False` in Python 2 for the value classes modelled here. -/
def pyEqNULL : PyVal → Bool
  | .pystr s => s = "NULL"
  | .uni s => s = "NULL"
  | _ => false

/-- `isinstance(val, str) or isinstance(val, unicode)` (core.py line 166). -/
def isText : PyVal → Bool
  | .pystr _ => true
  | .uni _ => true
  | _ => false

/-- The character data of a text value (what the `str`/`unicode` branch of
`_cellval2str` operates on); only consulted when `isText` holds. -/
def textOf : PyVal → String
  | .pystr s => s
  | .uni s => s
  | _ => ""

/-- Whether Python `float(s)` accepts a string: optional surrounding
whitespace, an optional sign, then digits with at most one decimal point and
at least one digit.  (Exponent and inf/nan forms are not modelled: inside
`_cellval2str` this predicate is only consulted for non-text values, because
the text branch fires first, so this string case is unreachable there.) -/
def pyFloatParses (s : String) : Bool :=
  let t := s.data.dropWhile (fun c => c.isWhitespace)
  let t := (t.reverse.dropWhile (fun c => c.isWhitespace)).reverse
  let t := match t with
           | c :: rest => if c = Char.ofNat 43 ∨ c = Char.ofNat 45 then rest else t
           | [] => t
  let intpart := t.takeWhile Char.isDigit
  let rest := t.dropWhile Char.isDigit
  match rest with
  | [] => decide (intpart ≠ [])
  | c :: frac =>
      c = Char.ofNat 46 && (intpart ≠ [] ∨ frac ≠ []) && frac.all Char.isDigit

/-- `isnumeric` (core.py lines 17-22): whether `float(x)` succeeds.  `float`
succeeds on numbers and on numeric text; on `None`, dates and other objects it
raises `TypeError` and the predicate is false. -/
def isnumeric : PyVal → Bool
  | .num _ => true
  | .pystr s => pyFloatParses s
  | .uni s => pyFloatParses s
  | _ => false

/-- `isdate` (core.py lines 25-30): whether the value exposes a `.day`
attribute. -/
def isdate : PyVal → Bool
  | .date _ _ _ _ _ _ => true
  | _ => false

/-- Decimal text of a `Nat`, zero-padded on the left to two digits
(strftime `%m`, `%d`, `%H`, `%M`, `%S`). -/
def pad2 (n : Nat) : String :=
  if n < 10 then "0" ++ toString n else toString n

/-- Decimal text of a `Nat`, zero-padded on the left to four digits
(strftime `%Y` for the years the library handles; Python 2 `strftime` rejects
years before 1900, so the pad is inert on reachable inputs). -/
def pad4 (n : Nat) : String :=
  if n < 10 then "000" ++ toString n
  else if n < 100 then "00" ++ toString n
  else if n < 1000 then "0" ++ toString n
  else toString n

/-- `date2str` (core.py lines 33-42): `with_hms` is whether
`d.hour + d.minute + d.second > 0`; a plain `datetime.date` has no such
attributes and takes the `except` path, which coincides with carrying zero
hour/minute/second here.  With `with_hms` the format is
`"%m/%d/%Y %H:%M:%S"`, otherwise `"%m/%d/%Y"`. -/
def date2str (month day year hour minute second : Nat) : String :=
  if hour + minute + second > 0 then
    pad2 month ++ "/" ++ pad2 day ++ "/" ++ pad4 year ++ " " ++
      pad2 hour ++ ":" ++ pad2 minute ++ ":" ++ pad2 second
  else
    pad2 month ++ "/" ++ pad2 day ++ "/" ++ pad4 year

/-- `date2str` applied to the fields of a date value; only consulted when
`isdate` holds. -/
def date2strVal : PyVal → String
  | .date mo d y hh mi ss => date2str mo d y hh mi ss
  | _ => ""

/-- Python `str(x)` for the modelled values.  For a date the CPython text is
the ISO form; `_cellval2str` never reaches `str` on a date (the `isdate`
branch fires first), it only feeds the `unicode2str` column conversion. -/
def pyStrOf : PyVal → String
  | .pynone => "None"
  | .pystr s => s
  | .uni s => s
  | .num rep => rep
  | .date mo d y hh mi ss =>
      pad4 y ++ "-" ++ pad2 mo ++ "-" ++ pad2 d ++ " " ++
        pad2 hh ++ ":" ++ pad2 mi ++ ":" ++ pad2 ss
  | .other rep => rep

/-- `addquotes` (core.py line 163): wrap in single quotes. -/
def addquotes (s : String) : String := squote ++ s ++ squote

/-- `_cellval2str` (core.py lines 155-174), keeping the source's branch
order: `None`-or-`"NULL"`, then text, then numeric, then date, then the
default `str` form. -/
def cellval2str (val : PyVal) (doublequotes : Bool) : String :=
  if isNoneVal val || pyEqNULL val then "NULL"
  else if isText val then
    addquotes (if doublequotes then replaceChar squoteChar (squote ++ squote) (textOf val)
               else textOf val)
  else if isnumeric val then pyStrOf val
  else if isdate val then addquotes (date2strVal val)
  else pyStrOf val

/-- `_chunks` (core.py lines 147-152): `for i in xrange(0, len(xs), n): yield
xs[i:i+n]`.  `List.range' 0 k n` is the index sequence `0, n, 2n, ...` of
length `k = ceil(len(xs)/n)` (the members of `xrange(0, len(xs), n)`), and
`xs[i:i+n]` is `(xs.drop i).take n`.  (For `n = 0` Python raises `ValueError`
inside `xrange`; every caller passes `n > 0`.) -/
def chunks {α : Type} (xs : List α) (n : Nat) : List (List α) :=
  (List.range' 0 ((xs.length + n - 1) / n) n).map (fun i => (xs.drop i).take n)

/-- `_list2csv` (core.py lines 45-46): `"(%s)" % ",".join(x)`. -/
def list2csv (x : List String) : String :=
  "(" ++ String.intercalate "," x ++ ")"

/-- Python list item assignment `xs[i] = v` for a non-negative index: raises
`IndexError` (`none` here) when `i` is out of range, otherwise updates in
place. -/
def pySetItem {α : Type} (xs : List α) (i : Nat) (v : α) : Option (List α) :=
  if i < xs.length then some (xs.set i v) else none

/-- The inner loop of `_list2insertvalues` (core.py lines 193-195):
`for j, cell in enumerate(row): processed_row[j] = _cellval2str(cell)`,
starting at index `j`.  Returns `none` when an assignment raises
`IndexError`, i.e. when the row is longer than `processed_row`. -/
def assignCells (pr : List (Option String)) (j : Nat) :
    List PyVal → Option (List (Option String))
  | [] => some pr
  | c :: cs => do
      let pr1 ← pySetItem pr j (some (cellval2str c true))
      assignCells pr1 (j + 1) cs

/-- The element check of Python `",".join(xs)`: the join raises `TypeError`
(`none` here) when an element is not a string, which happens exactly when a
`processed_row` slot was never assigned and still holds its initial `None`. -/
def cellsAllStrings : List (Option String) → Option (List String)
  | [] => some []
  | some s :: rest => (cellsAllStrings rest).map (fun t => s :: t)
  | none :: _ => none

/-- Python `",".join(xs)` over the `processed_row` buffer. -/
def pyJoinCells (sep : String) (xs : List (Option String)) : Option String :=
  (cellsAllStrings xs).map (String.intercalate sep)

/-- `"(%s)" % ",".join(processed_row)` over a possibly partially-assigned
`processed_row`. -/
def list2csvCells (x : List (Option String)) : Option String :=
  (pyJoinCells "," x).map (fun s => "(" ++ s ++ ")")

/-- The outer loop of `_list2insertvalues` (core.py lines 193-196): processes
each row into the shared `processed_row` buffer (which is *not* reset between
rows) and collects `res[i] = _list2csv(processed_row)`. -/
def rowsLoop (pr : List (Option String)) :
    List (List PyVal) → Option (List String)
  | [] => some []
  | row :: rest => do
      let pr1 ← assignCells pr 0 row
      let csv ← list2csvCells pr1
      let tail ← rowsLoop pr1 rest
      pure (csv :: tail)

/-- `_list2insertvalues` (core.py lines 177-198).  `none` models an exception:
`IndexError` on `data[0]` for empty data, or an error inside the row loop. -/
def list2insertvalues (data : List (List PyVal)) : Option String :=
  match data with
  | [] => none
  | row0 :: _ =>
      (rowsLoop (List.replicate row0.length none) data).map
        (String.intercalate ",")

/-- `_list2insertstatements` (core.py lines 201-217): one INSERT statement for
the whole row list. -/
def list2insertstatements (tablename : String) (colnames : List String)
    (data : List (List PyVal)) : Option String :=
  (list2insertvalues data).map
    (fun v => "INSERT INTO " ++ tablename ++ " " ++ list2csv colnames
      ++ " VALUES " ++ v)

/-- The Python exceptions the embedded fragments can raise. -/
inductive PyError where
  | assertionError
  | zeroDivisionError
  | typeError
  | indexError
deriving DecidableEq, Repr

/-- Python 2 integer division `a / b`: raises `ZeroDivisionError` when the
divisor is zero, otherwise floor division. -/
def pyDiv (a b : Nat) : Except PyError Nat :=
  if b = 0 then .error .zeroDivisionError else .ok (a / b)

/-- The dispatch structure of `_insert_list` (core.py lines 255-277): the
outer chunks (`_chunks(data, max_rows_per_insert*njobs)`), one worker pool
per outer chunk, and within each outer chunk the sub-chunks
(`_chunks(job_chunk, max_rows_per_insert)`), one worker task per sub-chunk.
Evaluating `tqdm(..., total=len(data)/chunksize)` divides by the chunk size
before the loop body runs, so a zero chunk size raises `ZeroDivisionError`
(modelled by `pyDiv`). -/
def insert_list_run {α : Type} (data : List α) (njobs max_rows_per_insert : Nat) :
    Except PyError (List (List (List α))) := do
  let chunksize := max_rows_per_insert * njobs
  let _total ← pyDiv data.length chunksize
  .ok ((chunks data chunksize).map (fun job_chunk => chunks job_chunk max_rows_per_insert))

/-- `njobs = njobs or mp.cpu_count()` (core.py line 366): `None` and `0` are
falsy, so both default to the CPU count. -/
def default_njobs (njobs : Option Nat) (cpu_count : Nat) : Nat :=
  match njobs with
  | none => cpu_count
  | some n => if n = 0 then cpu_count else n

/-- The `max_rows_per_insert` default (core.py lines 376-383):
`if not max_rows_per_insert:` (falsy for `None` and `0`), then
`len(data)/njobs` when `njobs < nrow`, else the whole row count. -/
def default_max_rows (max_rows_per_insert : Option Nat) (nrow njobs : Nat) : Nat :=
  let dflt := if njobs < nrow then nrow / njobs else nrow
  match max_rows_per_insert with
  | none => dflt
  | some m => if m = 0 then dflt else m

/-- The `data` argument of `sql_insert` (core.py line 345).  `strData` stands
for a value that is neither a `list` nor a `DataFrame`; a Python `str` is used
as the representative because it survives the later `len` / slicing
operations, exposing how far execution gets. -/
inductive PyData where
  | pylist (rows : List (List PyVal))
  | frame (cols : List String) (rows : List (List PyVal))
  | strData (s : String)
deriving DecidableEq, Repr

/-- Truthiness of the freshly constructed `Exception(...)` object in
`assert Exception("Data of type %s not allowed." % type(data))`
(core.py line 374): an exception instance is a truthy Python object, so the
assert succeeds. -/
def exceptionObjectTruthy : Bool := true

/-- `QueryRunner.sql_insert` (core.py lines 345-386) up to and including the
hand-off to `_insert_list`; the result is `_insert_list`'s dispatch
structure.  The steps, in source order: default `njobs`, dispatch on the type
of `data` (list / DataFrame / anything else), default `max_rows_per_insert`,
then `_insert_list`.  Iterating a Python `str` yields its one-character
substrings, hence the `strData` row conversion. -/
def sql_insert_run (data : PyData) (colnames : Option (List String))
    (njobs0 max_rows0 : Option Nat) (cpu_count : Nat) :
    Except PyError (List (List (List (List PyVal)))) := do
  let njobs := default_njobs njobs0 cpu_count
  let rows : List (List PyVal) ←
    match data with
    | .pylist rows =>
        if colnames.isSome then .ok rows else .error .assertionError
    | .frame _ rows => .ok rows
    | .strData s =>
        if exceptionObjectTruthy then
          .ok (s.data.map (fun c => [PyVal.pystr (String.singleton c)]))
        else .error .assertionError
  let max_rows := default_max_rows max_rows0 rows.length njobs
  insert_list_run rows njobs max_rows

/-- `isinstance(x, unicode)`. -/
def isUni : PyVal → Bool
  | .uni _ => true
  | _ => false

/-- `QueryRunner._unicode2str` (core.py lines 288-294): when the frame has at
least one row, every column whose first cell is `unicode` is converted with
`astype("str").str.strip()`, i.e. each of its cells becomes the stripped
`str` text of the cell.  A frame is modelled as its list of rows. -/
def unicode2str (fr : List (List PyVal)) : List (List PyVal) :=
  match fr with
  | [] => fr
  | r0 :: _ =>
      fr.map (fun row => row.enum.map (fun p =>
        if isUni (r0.getD p.1 (PyVal.other "")) then PyVal.pystr (pyStrOf p.2).trim
        else p.2))

/-- What the pandas `read_sql(..., chunksize=...)` iterator does underneath a
chunked select: it produces `tables` and then either ends or raises `readErr`
mid-stream. -/
structure ChunkedReadInput where
  tables : List (List (List PyVal))
  readErr : Option PyError
deriving DecidableEq, Repr

/-- One element of the sequence produced by a chunked select: either a
(converted) sub-table or the caught error value itself. -/
inductive StreamElem where
  | frame (t : List (List PyVal))
  | errVal (e : PyError)
deriving DecidableEq, Repr

/-- The observable outcome of draining `QueryRunner._sql_select_chunked`
(core.py lines 296-305): the elements the generator yields, plus whether the
connection was closed when the sequence ended. -/
structure ChunkedSelectRun where
  yielded : List StreamElem
  closed : Bool
deriving DecidableEq, Repr

/-- `QueryRunner._sql_select_chunked` (core.py lines 296-305): each sub-table
is converted and yielded; a mid-stream read error is caught, printed and
*yielded* (`yield err`) as the next and last element rather than raised; the
`finally` block closes the connection when the sequence ends on either path. -/
def sql_select_chunked (inp : ChunkedReadInput) : ChunkedSelectRun :=
  { yielded :=
      inp.tables.map (fun t => StreamElem.frame (unicode2str t)) ++
        (match inp.readErr with
         | some e => [StreamElem.errVal e]
         | none => []),
    closed := true }

/-- How the body of a `with open_cursor() as curs:` block ends. -/
inductive BodyOutcome where
  | ok
  | raises (e : PyError)
deriving DecidableEq, Repr

/-- The observable events of `BaseCnHandler.open_cursor`. -/
inductive CnEvent where
  | openConn
  | getCursor
  | execCommit
  | closeConn
  | reraise (e : PyError)
deriving DecidableEq, Repr

/-- `BaseCnHandler.open_cursor` (core.py lines 76-87), as the ordered event
trace for a given body outcome: the connection is opened and a cursor taken;
on normal exit the `else:` clause executes `COMMIT` and then the `finally:`
clause closes the connection; on an exception the `except:` clause re-raises
it, the `finally:` clause closes the connection before the exception leaves
the context manager, and no `COMMIT` is executed. -/
def open_cursor_events (body : BodyOutcome) : List CnEvent :=
  [CnEvent.openConn, CnEvent.getCursor] ++
    match body with
    | .ok => [CnEvent.execCommit, CnEvent.closeConn]
    | .raises e => [CnEvent.closeConn, CnEvent.reraise e]

/-- The fields of `SqlCnHandler` (core.py lines 116-123). -/
structure SqlCnHandler where
  server : String
  dbname : String
  username : String
  password : String
deriving DecidableEq, Repr

/-- `SqlCnHandler._linux_cn_str` (core.py lines 125-128). -/
def sql_linux_cn_str (h : SqlCnHandler) : String :=
  "DSN=" ++ h.server ++ "; DATABASE=" ++ h.dbname ++ "; UID=" ++ h.username
    ++ "; PWD=" ++ h.password

/-- `SqlCnHandler._windows_cn_str` (core.py lines 130-137): `if self.username:`
is Python truthiness, i.e. the username is non-empty. -/
def sql_windows_cn_str (h : SqlCnHandler) : String :=
  let res := "DRIVER=\x7bSQL Server\x7d; SERVER=" ++ h.server
    ++ "; DATABASE=" ++ h.dbname
  if h.username ≠ "" then res ++ "; UID=" ++ h.username ++ "; PWD=" ++ h.password
  else res ++ "; Trusted_Connection=yes;"

/-- `SqlCnHandler.cn_str` (core.py lines 139-144): branch on `iswindows()`. -/
def sql_cn_str (iswindows : Bool) (h : SqlCnHandler) : String :=
  if iswindows then sql_windows_cn_str h else sql_linux_cn_str h

/-- `PgCnHandler.cn_str` (core.py lines 111-113):
`"dbname=%s host='%s' user=%s"`. -/
def pg_cn_str (dbname host username : String) : String :=
  "dbname=" ++ dbname ++ " host=" ++ squote ++ host ++ squote
    ++ " user=" ++ username

/-- `row.loc[colname]` for a frame row (core.py line 419): the cell under the
first column labelled `colname`, `none` when the label is missing (pandas
raises `KeyError`). -/
def frame_loc (cols : List String) (row : List PyVal) (c : String) : Option PyVal :=
  (cols.indexOf? c).bind (fun i => row[i]?)

/-- `QueryRunner._delete_where` (core.py lines 388-407):
`DELETE FROM <table> WHERE c1 = v1 AND c2 = v2 ...` with values rendered by
`_cellval2str(colval, True)`.  The source iterates a dict built from
`keycols`; CPython 2 dict order is unspecified, so the association list is
taken in `keycols` construction order. -/
def delete_where (tablename : String) (cols : List (String × PyVal)) : String :=
  "DELETE FROM " ++ tablename ++ " WHERE " ++
    String.intercalate " AND "
      (cols.map (fun cv => cv.1 ++ " = " ++ cellval2str cv.2 true))

/-- The two phases `sql_upsert` hands to the backend, in order. -/
inductive UpsertStep where
  | execBatch (queries : List String)
  | parallelInsert (cols : List String) (rows : List (List PyVal))
deriving DecidableEq, Repr

/-- Option-valued map used to thread pandas `KeyError` through the upsert's
row loop. -/
def mapOpt {α β : Type} (f : α → Option β) : List α → Option (List β)
  | [] => some []
  | a :: l => do
      let b ← f a
      let t ← mapOpt f l
      pure (b :: t)

/-- `QueryRunner.sql_upsert` (core.py lines 409-422): for each row of the
frame, build the key-column association and its DELETE statement; execute all
deletes in one `exec_query` batch; then `sql_insert` the entire frame (whose
own column labels and full row set are used). -/
def sql_upsert_run (tablename : String) (fcols : List String)
    (frows : List (List PyVal)) (keycols : List String) :
    Option (List UpsertStep) := do
  let deletes ← mapOpt (fun row =>
    (mapOpt (fun c => (frame_loc fcols row c).map (fun v => (c, v))) keycols).map
      (delete_where tablename)) frows
  some [UpsertStep.execBatch deletes, UpsertStep.parallelInsert fcols frows]

/-- The budget rule exactly as claim C6 states it: integer division whenever
the row count exceeds the job count, and collapse to the full row count
*exactly when* the row count is fewer than the job count. -/
def claimC6_budget (nrow njobs : Nat) : Prop :=
  (njobs < nrow → default_max_rows none nrow njobs = nrow / njobs) ∧
  (default_max_rows none nrow njobs = nrow ↔ nrow < njobs)

theorem chunks_length {α : Type} (xs : List α) (n : Nat) :
    (chunks xs n).length = (xs.length + n - 1) / n := by
  simp [chunks]

theorem chunks_mem_length_le {α : Type} (xs : List α) (n : Nat) :
    ∀ c ∈ chunks xs n, c.length ≤ n := by
  intro c hc
  simp only [chunks, List.mem_map] at hc
  obtain ⟨i, -, rfl⟩ := hc
  exact List.length_take_le _ _

theorem map_range'_shift {β : Type} (f : Nat → β) (step : Nat) :
    ∀ (k s : Nat),
      (List.range' (s + step) k step).map f
        = (List.range' s k step).map (fun i => f (i + step)) := by
  intro k
  induction k with
  | zero => intro s; rfl
  | succ k ih =>
      intro s
      simp only [List.range', List.map]
      have := ih (s + step)
      rw [Nat.add_right_comm] at this
      rw [this]

theorem ceil_div_shift (L n : Nat) (hn : 0 < n) (hL : 0 < L) :
    (L + n - 1) / n = (L - n + n - 1) / n + 1 := by
  rcases le_or_lt L n with h | h
  · have h1 : L - n = 0 := Nat.sub_eq_zero_of_le h
    rw [h1]
    have h2 : (n - 1) / n = 0 := Nat.div_eq_of_lt (by omega)
    rw [Nat.zero_add, h2]
    have h3 : L + n - 1 = (L - 1) + n := by omega
    rw [h3, Nat.add_div_right _ hn]
    have h4 : (L - 1) / n = 0 := Nat.div_eq_of_lt (by omega)
    omega
  · have h1 : L - n + n - 1 = L - 1 := by omega
    have h3 : L + n - 1 = (L - 1) + n := by omega
    rw [h1, h3, Nat.add_div_right _ hn]

theorem chunks_cons {α : Type} (xs : List α) (n : Nat) (hn : 0 < n)
    (hxs : xs ≠ []) :
    chunks xs n = xs.take n :: chunks (xs.drop n) n := by
  have hL : 0 < xs.length := List.length_pos.mpr hxs
  have hk : (xs.length + n - 1) / n = ((xs.drop n).length + n - 1) / n + 1 := by
    rw [List.length_drop]
    exact ceil_div_shift xs.length n hn hL
  have hL : 0 < xs.length := List.length_pos.mpr hxs
  have hk : (xs.length + n - 1) / n = ((xs.drop n).length + n - 1) / n + 1 := by
    rw [List.length_drop]
    exact ceil_div_shift xs.length n hn hL
  have hshift := map_range'_shift (fun i => (xs.drop i).take n) n
    (((xs.drop n).length + n - 1) / n) 0
  rw [Nat.zero_add] at hshift
  calc chunks xs n
      = (List.range' 0 (((xs.drop n).length + n - 1) / n + 1) n).map
          (fun i => (xs.drop i).take n) := by rw [chunks, hk]
    _ = (xs.drop 0).take n ::
          (List.range' (0 + n) (((xs.drop n).length + n - 1) / n) n).map
            (fun i => (xs.drop i).take n) := rfl
    _ = xs.take n ::
          (List.range' n (((xs.drop n).length + n - 1) / n) n).map
            (fun i => (xs.drop i).take n) := by rw [List.drop_zero, Nat.zero_add]
    _ = xs.take n ::
          (List.range' 0 (((xs.drop n).length + n - 1) / n) n).map
            (fun i => (xs.drop (i + n)).take n) := by rw [hshift]
    _ = xs.take n ::
          (List.range' 0 (((xs.drop n).length + n - 1) / n) n).map
            (fun i => ((xs.drop n).drop i).take n) := by
          apply congrArg
          apply List.map_congr_left
          intro i hi
          rw [List.drop_drop, Nat.add_comm n i]
    _ = xs.take n :: chunks (xs.drop n) n := rfl

theorem chunks_nil {α : Type} (n : Nat) : chunks ([] : List α) n = [] := by
  have h0 : (n - 1) / n = 0 := by
    rcases Nat.eq_zero_or_pos n with rfl | hn
    · simp
    · exact Nat.div_eq_of_lt (by omega)
  simp [chunks, h0, List.range']

theorem chunks_join_aux {α : Type} (n : Nat) (hn : 0 < n) :
    ∀ (m : Nat) (xs : List α), xs.length ≤ m → (chunks xs n).flatten = xs := by
  intro m
  induction m with
  | zero =>
      intro xs hxs
      have : xs = [] := List.eq_nil_of_length_eq_zero (Nat.le_zero.mp hxs)
      subst this
      simp [chunks_nil]
  | succ m ih =>
      intro xs hxs
      rcases eq_or_ne xs [] with rfl | hne
      · simp [chunks_nil]
      · rw [chunks_cons xs n hn hne, List.flatten_cons]
        have hdrop : (xs.drop n).length ≤ m := by
          rw [List.length_drop]
          have : 0 < xs.length := List.length_pos.mpr hne
          omega
        rw [ih (xs.drop n) hdrop, List.take_append_drop]

/-- Concatenating the chunks restores the original list. -/
theorem chunks_join {α : Type} (xs : List α) (n : Nat) (hn : 0 < n) :
    (chunks xs n).flatten = xs :=
  chunks_join_aux n hn xs.length xs (Nat.le_refl _)

theorem pySetItem_length {α : Type} {xs ys : List α} {i : Nat} {v : α}
    (h : pySetItem xs i v = some ys) : ys.length = xs.length := by
  unfold pySetItem at h
  split at h
  · cases h
    exact List.length_set xs i v
  · cases h

theorem assignCells_length {row : List PyVal} :
    ∀ {pr pr1 : List (Option String)} {j : Nat},
      assignCells pr j row = some pr1 → pr1.length = pr.length := by
  induction row with
  | nil =>
      intro pr pr1 j h
      cases h
      rfl
  | cons c cs ih =>
      intro pr pr1 j h
      simp only [assignCells, Option.bind_eq_bind, Option.bind_eq_some] at h
      obtain ⟨pr2, h2, h3⟩ := h
      rw [ih h3, pySetItem_length h2]

theorem assignCells_isSome_of_le {row : List PyVal} :
    ∀ {pr : List (Option String)} {j : Nat},
      j + row.length ≤ pr.length → (assignCells pr j row).isSome := by
  induction row with
  | nil =>
      intro pr j hle
      simp [assignCells]
  | cons c cs ih =>
      intro pr j hle
      have hj : j < pr.length := by
        simp only [List.length_cons] at hle
        omega
      have hset : pySetItem pr j (some (cellval2str c true))
          = some (pr.set j (some (cellval2str c true))) := by
        simp [pySetItem, hj]
      simp only [assignCells, Option.bind_eq_bind, hset, Option.some_bind]
      apply ih
      rw [List.length_set]
      simp only [List.length_cons] at hle
      omega

theorem assignCells_get {row : List PyVal} :
    ∀ {pr pr1 : List (Option String)} {j : Nat},
      assignCells pr j row = some pr1 →
      ∀ k : Nat,
        (¬ (j ≤ k ∧ k < j + row.length) → pr1[k]? = pr[k]?) ∧
        (j ≤ k → k < j + row.length → ∃ s : String, pr1[k]? = some (some s)) := by
  induction row with
  | nil =>
      intro pr pr1 j h k
      cases h
      exact ⟨fun _ => rfl, fun h1 h2 => absurd h2 (by simp only [List.length_nil]; omega)⟩
  | cons c cs ih =>
      intro pr pr1 j h k
      simp only [assignCells, Option.bind_eq_bind, Option.bind_eq_some] at h
      obtain ⟨pr2, h2, h3⟩ := h
      have hj : j < pr.length := by
        by_contra hj
        simp [pySetItem, Nat.lt_irrefl] at h2
        omega
      have hpr2 : pr2 = pr.set j (some (cellval2str c true)) := by
        simp only [pySetItem, if_pos hj] at h2
        exact (Option.some.inj h2).symm
      constructor
      · intro hout
        have hk_ne : j ≠ k := by
          simp only [List.length_cons] at hout
          omega
        have hout2 : ¬ (j + 1 ≤ k ∧ k < (j + 1) + cs.length) := by
          simp only [List.length_cons] at hout
          omega
        have := ((ih h3) k).1 hout2
        rw [this, hpr2, List.getElem?_set_ne hk_ne]
      · intro h1 h2
        rcases eq_or_ne k j with rfl | hne
        · have hin2 : ¬ (k + 1 ≤ k ∧ k < (k + 1) + cs.length) := by omega
          have := ((ih h3) k).1 hin2
          rw [this, hpr2]
          refine ⟨cellval2str c true, ?_⟩
          simp [List.getElem?_set_self, hj]
        · have h1' : j + 1 ≤ k := by omega
          have h2' : k < (j + 1) + cs.length := by
            simp only [List.length_cons] at h2
            omega
          exact ((ih h3) k).2 h1' h2'

theorem assignCells_allSome {row : List PyVal}
    {pr pr1 : List (Option String)} {j : Nat}
    (h : assignCells pr j row = some pr1) (hpr : ∀ x ∈ pr, x.isSome) :
    ∀ x ∈ pr1, x.isSome := by
  intro x hx
  obtain ⟨k, hk⟩ := List.mem_iff_getElem?.mp hx
  by_cases hin : j ≤ k ∧ k < j + row.length
  · obtain ⟨s, hs⟩ := ((assignCells_get h) k).2 hin.1 hin.2
    rw [hk] at hs
    cases hs
    rfl
  · have heq := ((assignCells_get h) k).1 hin
    rw [heq] at hk
    exact hpr x (List.mem_iff_getElem?.mpr ⟨k, hk⟩)

theorem assignCells_replicate_allSome {row : List PyVal}
    {pr1 : List (Option String)}
    (h : assignCells (List.replicate row.length (none : Option String)) 0 row
      = some pr1) :
    ∀ x ∈ pr1, x.isSome := by
  intro x hx
  obtain ⟨k, hk⟩ := List.mem_iff_getElem?.mp hx
  have hklt : k < pr1.length := (List.getElem?_eq_some.mp hk).1
  have hlen : pr1.length = row.length := by
    rw [assignCells_length h, List.length_replicate]
  obtain ⟨s, hs⟩ := ((assignCells_get h) k).2 (Nat.zero_le k)
    (by rw [Nat.zero_add]; omega)
  rw [hk] at hs
  cases hs
  rfl

theorem cellsAllStrings_isSome :
    ∀ {pr : List (Option String)}, (∀ x ∈ pr, x.isSome) →
      (cellsAllStrings pr).isSome := by
  intro pr
  induction pr with
  | nil => intro h; simp [cellsAllStrings]
  | cons a l ih =>
      intro h
      obtain ⟨s, hs⟩ :=
        Option.isSome_iff_exists.mp (h a (List.mem_cons_self a l))
      obtain ⟨t, ht⟩ :=
        Option.isSome_iff_exists.mp (ih (fun x hx => h x (List.mem_cons_of_mem a hx)))
      subst hs
      simp [cellsAllStrings, ht]

theorem list2csvCells_isSome {pr : List (Option String)}
    (h : ∀ x ∈ pr, x.isSome) : (list2csvCells pr).isSome := by
  obtain ⟨t, ht⟩ := Option.isSome_iff_exists.mp (cellsAllStrings_isSome h)
  simp [list2csvCells, pyJoinCells, ht]

theorem rowsLoop_isSome (ncol : Nat) :
    ∀ {rows : List (List PyVal)} {pr : List (Option String)},
      pr.length = ncol → (∀ x ∈ pr, x.isSome) →
      (∀ row ∈ rows, row.length ≤ ncol) →
      (rowsLoop pr rows).isSome := by
  intro rows
  induction rows with
  | nil => intro pr _ _ _; simp [rowsLoop]
  | cons row rest ih =>
      intro pr hlen hsome hrows
      have h1 : (assignCells pr 0 row).isSome := by
        apply assignCells_isSome_of_le
        rw [Nat.zero_add, hlen]
        exact hrows row (List.mem_cons_self row rest)
      obtain ⟨pr1, hpr1⟩ := Option.isSome_iff_exists.mp h1
      have hall : ∀ x ∈ pr1, x.isSome := assignCells_allSome hpr1 hsome
      have hlen1 : pr1.length = ncol := by rw [assignCells_length hpr1, hlen]
      obtain ⟨csv, hcsv⟩ := Option.isSome_iff_exists.mp (list2csvCells_isSome hall)
      obtain ⟨tail, htail⟩ := Option.isSome_iff_exists.mp
        (ih hlen1 hall (fun r hr => hrows r (List.mem_cons_of_mem row hr)))
      simp [rowsLoop, hpr1, hcsv, htail]

/-- C3 (amended): client-side statement construction performs no column-count
validation — `_list2insertstatements` completes without raising for every
non-empty row list in which no row is longer than the first row, including
rows shorter than the first row and any mismatch with the column-name
sequence, leaving such violations to surface only at backend execution; but a
row longer than the first row makes construction itself raise an
`IndexError` (see the counterexample). -/
theorem c3_statement_construction_total_unless_overlong
    (tablename : String) (colnames : List String)
    (row0 : List PyVal) (rest : List (List PyVal))
    (hle : ∀ row ∈ rest, row.length ≤ row0.length) :
    (list2insertstatements tablename colnames (row0 :: rest)).isSome := by
  have h1 : (assignCells (List.replicate row0.length (none : Option String)) 0 row0).isSome := by
    apply assignCells_isSome_of_le
    simp
  obtain ⟨pr1, hpr1⟩ := Option.isSome_iff_exists.mp h1
  have hall : ∀ x ∈ pr1, x.isSome := assignCells_replicate_allSome hpr1
  have hlen1 : pr1.length = row0.length := by
    rw [assignCells_length hpr1, List.length_replicate]
  obtain ⟨csv, hcsv⟩ := Option.isSome_iff_exists.mp (list2csvCells_isSome hall)
  obtain ⟨tail, htail⟩ := Option.isSome_iff_exists.mp
    (rowsLoop_isSome row0.length hlen1 hall hle)
  simp [list2insertstatements, list2insertvalues, rowsLoop, hpr1, hcsv, htail]

theorem mapOpt_eq_map {α β : Type} (f : α → Option β) (g : α → β) :
    ∀ (l : List α), (∀ a ∈ l, f a = some (g a)) → mapOpt f l = some (l.map g) := by
  intro l
  induction l with
  | nil => intro h; rfl
  | cons a l ih =>
      intro h
      have ha := h a (List.mem_cons_self a l)
      have ht := ih (fun x hx => h x (List.mem_cons_of_mem a hx))
      simp [mapOpt, ha, ht]

/-- C1: `_cellval2str` is deterministic and total and applies its rules in the
source's order: `None` and the text `"NULL"` (as `str` or `unicode`) map to
the unquoted text `NULL`; any other text maps to a single-quoted string with
embedded single quotes doubled — even text that parses as a number, since the
text branch precedes the numeric branch; numeric values map to their unquoted
`str` text; date values map to a quoted `MM/DD/YYYY` when
hour+minute+second is zero and to a quoted `MM/DD/YYYY HH:MM:SS` otherwise;
every remaining value maps to its unquoted `str` text. -/
theorem c1_cellval2str_rules :
    (cellval2str PyVal.pynone true = "NULL") ∧
    (cellval2str (PyVal.pystr "NULL") true = "NULL" ∧
      cellval2str (PyVal.uni "NULL") true = "NULL") ∧
    (∀ s : String, s ≠ "NULL" →
      cellval2str (PyVal.pystr s) true
        = addquotes (replaceChar squoteChar (squote ++ squote) s)) ∧
    (∀ rep : String, cellval2str (PyVal.num rep) true = rep) ∧
    (∀ mo d y hh mi ss : Nat, hh + mi + ss = 0 →
      cellval2str (PyVal.date mo d y hh mi ss) true
        = addquotes (pad2 mo ++ "/" ++ pad2 d ++ "/" ++ pad4 y)) ∧
    (∀ mo d y hh mi ss : Nat, hh + mi + ss > 0 →
      cellval2str (PyVal.date mo d y hh mi ss) true
        = addquotes (pad2 mo ++ "/" ++ pad2 d ++ "/" ++ pad4 y ++ " " ++
            pad2 hh ++ ":" ++ pad2 mi ++ ":" ++ pad2 ss)) ∧
    (∀ rep : String, cellval2str (PyVal.other rep) true = rep) ∧
    (isnumeric (PyVal.pystr "3.14") = true ∧
      cellval2str (PyVal.pystr "3.14") true = addquotes "3.14") ∧
    (cellval2str (PyVal.pystr ("O" ++ squote ++ "Brien")) true
      = squote ++ "O" ++ squote ++ squote ++ "Brien" ++ squote) ∧
    (cellval2str (PyVal.num "3.14") true = "3.14") := by
  refine ⟨rfl, ⟨by decide, by decide⟩, ?_, ?_, ?_, ?_, ?_, ⟨by decide, by decide⟩,
    by decide, by decide⟩
  · intro s hs
    simp [cellval2str, isNoneVal, pyEqNULL, isText, textOf, hs]
  · intro rep
    simp [cellval2str, isNoneVal, pyEqNULL, isText, isnumeric, pyStrOf]
  · intro mo d y hh mi ss h0
    simp [cellval2str, isNoneVal, pyEqNULL, isText, isnumeric, isdate,
      date2strVal, date2str, h0]
  · intro mo d y hh mi ss h1
    simp [cellval2str, isNoneVal, pyEqNULL, isText, isnumeric, isdate,
      date2strVal, date2str, h1, Nat.pos_iff_ne_zero.mp h1]
  · intro rep
    simp [cellval2str, isNoneVal, pyEqNULL, isText, isnumeric, isdate, pyStrOf]

theorem c1_witness :
    cellval2str (PyVal.pystr "abc") true
      = addquotes (replaceChar squoteChar (squote ++ squote) "abc") ∧
    cellval2str (PyVal.date 7 1 2013 0 0 0) true
      = addquotes (pad2 7 ++ "/" ++ pad2 1 ++ "/" ++ pad4 2013) ∧
    cellval2str (PyVal.date 7 1 2013 1 2 3) true
      = addquotes (pad2 7 ++ "/" ++ pad2 1 ++ "/" ++ pad4 2013 ++ " " ++
          pad2 1 ++ ":" ++ pad2 2 ++ ":" ++ pad2 3) := by
  obtain ⟨-, -, hstr, -, hd0, hd1, -⟩ := c1_cellval2str_rules
  exact ⟨hstr "abc" (by decide), hd0 7 1 2013 0 0 0 rfl,
    hd1 7 1 2013 1 2 3 (by decide)⟩

/-- C2: for a non-empty row list and positive `njobs = J`,
`max_rows_per_insert = R`, `_insert_list` creates one worker pool per outer
chunk — exactly ceil(N/(J·R)) of them; every outer chunk holds at most J·R
rows; every sub-chunk holds at most R rows; and the sub-chunks concatenated
across all outer chunks, in order, are exactly the original rows. -/
theorem c2_insert_list_dispatch {α : Type} (data : List α) (J R : Nat)
    (hd : data ≠ []) (hJ : 0 < J) (hR : 0 < R) :
    insert_list_run data J R
      = Except.ok ((chunks data (R * J)).map (fun jc => chunks jc R)) ∧
    (chunks data (R * J)).length = (data.length + J * R - 1) / (J * R) ∧
    (∀ oc ∈ chunks data (R * J), oc.length ≤ J * R) ∧
    (∀ oc ∈ chunks data (R * J), ∀ sc ∈ chunks oc R, sc.length ≤ R) ∧
    ((chunks data (R * J)).map (fun oc => (chunks oc R).flatten)).flatten
      = data := by
  have hRJ : R * J ≠ 0 := by positivity
  refine ⟨?_, ?_, ?_, ?_, ?_⟩
  · simp only [insert_list_run]
    rw [show pyDiv data.length (R * J) = Except.ok (data.length / (R * J))
      from by simp [pyDiv, hRJ]]
    rfl
  · rw [chunks_length, Nat.mul_comm J R]
  · intro oc hoc
    have := chunks_mem_length_le data (R * J) oc hoc
    rwa [Nat.mul_comm R J] at this
  · intro oc hoc sc hsc
    exact chunks_mem_length_le oc R sc hsc
  · have h1 : (chunks data (R * J)).map (fun oc => (chunks oc R).flatten)
        = (chunks data (R * J)).map id := by
      apply List.map_congr_left
      intro oc hoc
      exact chunks_join oc R hR
    rw [h1, List.map_id]
    exact chunks_join data (R * J) (Nat.pos_of_ne_zero hRJ)

theorem c2_witness :
    insert_list_run [1, 2, 3] 2 1
      = Except.ok ((chunks [1, 2, 3] (1 * 2)).map (fun jc => chunks jc 1)) :=
  (c2_insert_list_dispatch [1, 2, 3] 2 1 (by decide) (by decide) (by decide)).1

/-- C3 counterexample: a row list whose second row is wider than its first
makes `_list2insertstatements` itself raise (`IndexError` on the
`processed_row[j]` assignment), so construction does *not* complete for every
ragged row list. -/
theorem c3_counterexample :
    list2insertstatements "t" ["a"]
      [[PyVal.num "1"], [PyVal.num "2", PyVal.num "3"]] = none := by decide

theorem c3_witness :
    (list2insertstatements "t" ["a", "b"]
      ([PyVal.num "1", PyVal.num "2"] :: [[PyVal.num "3"]])).isSome :=
  c3_statement_construction_total_unless_overlong "t" ["a", "b"]
    [PyVal.num "1", PyVal.num "2"] [[PyVal.num "3"]] (by decide)

/-- C4: the claim's first half holds — a row list without column names fails
fast with `AssertionError` — but its second half does not: for data that is
neither a list nor a DataFrame the source's `assert Exception(...)` asserts a
freshly constructed (truthy) exception object, so no error is raised and the
call proceeds all the way to dispatching INSERT work to the backend (here a
`str`, whose iteration yields one-character rows). -/
theorem c4_sql_insert_validation :
    (∀ rows : List (List PyVal), ∀ cpu : Nat,
      sql_insert_run (PyData.pylist rows) none none none cpu
        = Except.error PyError.assertionError) ∧
    sql_insert_run (PyData.strData "abc") (some ["c"]) none none 4
      = Except.ok [[[[PyVal.pystr "a"], [PyVal.pystr "b"], [PyVal.pystr "c"]]]] := by
  refine ⟨fun rows cpu => rfl, rfl⟩

/-- C5: a chunked select yields each converted sub-table; a mid-stream read
error is yielded (not raised) as the final element of the sequence; and the
connection is closed when the sequence ends, on the exhaustion path and on
the error path alike. -/
theorem c5_chunked_select_error_in_band (inp : ChunkedReadInput) :
    (sql_select_chunked inp).closed = true ∧
    (inp.readErr = none →
      (sql_select_chunked inp).yielded
        = inp.tables.map (fun t => StreamElem.frame (unicode2str t))) ∧
    (∀ e : PyError, inp.readErr = some e →
      (sql_select_chunked inp).yielded.getLast?
        = some (StreamElem.errVal e)) := by
  refine ⟨rfl, ?_, ?_⟩
  · intro hnone
    simp [sql_select_chunked, hnone]
  · intro e he
    simp [sql_select_chunked, he, List.getLast?_concat]

theorem c5_witness :
    (sql_select_chunked ⟨[[[PyVal.num "1"]]], some PyError.typeError⟩).closed
      = true ∧
    (sql_select_chunked
        ⟨[[[PyVal.num "1"]]], some PyError.typeError⟩).yielded.getLast?
      = some (StreamElem.errVal PyError.typeError) := by
  obtain ⟨h1, -, h3⟩ :=
    c5_chunked_select_error_in_band ⟨[[[PyVal.num "1"]]], some PyError.typeError⟩
  exact ⟨h1, h3 PyError.typeError rfl⟩

/-- C6 counterexample: with 2 rows and 2 jobs the code takes the collapse
branch (budget = full row count = 2, not 2/2 = 1) although the row count is
not fewer than the job count, refuting the claim's "exactly when fewer". -/
theorem c6_counterexample : ¬ claimC6_budget 2 2 := by
  intro h
  exact absurd ((h.2).mp (by decide)) (by decide)

/-- C6 (amended): with `njobs` and `max_rows_per_insert` unset, the job count
defaults to the CPU count and the per-job row budget defaults to
`nrow / njobs` (integer division) when the row count exceeds the job count,
collapsing to the full row count when the row count is at most the job
count. -/
theorem c6_insert_defaults (cpu nrow njobs : Nat) :
    default_njobs none cpu = cpu ∧
    (njobs < nrow → default_max_rows none nrow njobs = nrow / njobs) ∧
    (nrow ≤ njobs → default_max_rows none nrow njobs = nrow) := by
  refine ⟨rfl, ?_, ?_⟩
  · intro h
    simp [default_max_rows, h]
  · intro h
    simp [default_max_rows, Nat.not_lt.mpr h]

theorem c6_witness :
    default_njobs none 8 = 8 ∧
    default_max_rows none 10 2 = 10 / 2 ∧
    default_max_rows none 2 4 = 2 :=
  ⟨(c6_insert_defaults 8 10 2).1,
   (c6_insert_defaults 8 10 2).2.1 (by decide),
   (c6_insert_defaults 8 2 4).2.2 (by decide)⟩

/-- C7: `sql_upsert` first builds one DELETE per data row, keyed on exactly
the named key columns with values rendered by `_cellval2str`, executes all of
them sequentially in a single `exec_query` batch, and only then performs the
parallel insert of the entire frame. -/
theorem c7_upsert_delete_then_insert (tablename : String) (fcols : List String)
    (frows : List (List PyVal)) (keycols : List String)
    (hkeys : ∀ row ∈ frows, ∀ c ∈ keycols, (frame_loc fcols row c).isSome) :
    sql_upsert_run tablename fcols frows keycols
      = some [UpsertStep.execBatch (frows.map (fun row =>
            delete_where tablename (keycols.map (fun c =>
              (c, (frame_loc fcols row c).getD PyVal.pynone))))),
          UpsertStep.parallelInsert fcols frows] := by
  have hdel := mapOpt_eq_map
    (fun row => (mapOpt (fun c =>
        (frame_loc fcols row c).map (fun v => (c, v))) keycols).map
      (delete_where tablename))
    (fun row => delete_where tablename (keycols.map (fun c =>
      (c, (frame_loc fcols row c).getD PyVal.pynone))))
    frows ?_
  · simp [sql_upsert_run, hdel]
  · intro row hrow
    have hcols := mapOpt_eq_map
      (fun c => (frame_loc fcols row c).map (fun v => (c, v)))
      (fun c => (c, (frame_loc fcols row c).getD PyVal.pynone))
      keycols ?_
    · simp [hcols]
    · intro c hc
      obtain ⟨v, hv⟩ := Option.isSome_iff_exists.mp (hkeys row hrow c hc)
      simp [hv]

theorem c7_witness :
    sql_upsert_run "t" ["id", "val"] [[PyVal.num "1", PyVal.pystr "a"]] ["id"]
      = some [UpsertStep.execBatch [delete_where "t"
            [("id", (frame_loc ["id", "val"] [PyVal.num "1", PyVal.pystr "a"] "id").getD
              PyVal.pynone)]],
          UpsertStep.parallelInsert ["id", "val"]
            [[PyVal.num "1", PyVal.pystr "a"]]] := by
  have h := c7_upsert_delete_then_insert "t" ["id", "val"]
    [[PyVal.num "1", PyVal.pystr "a"]] ["id"] (by decide)
  simpa using h

/-- C8: `open_cursor` commits and then closes on normal exit; on a body
exception it executes no COMMIT, closes the connection, and only then lets
the exception propagate; the connection is closed on every exit path. -/
theorem c8_open_cursor_close_on_all_paths :
    (∀ b : BodyOutcome, CnEvent.closeConn ∈ open_cursor_events b) ∧
    open_cursor_events BodyOutcome.ok
      = [CnEvent.openConn, CnEvent.getCursor, CnEvent.execCommit,
          CnEvent.closeConn] ∧
    ∀ e : PyError,
      open_cursor_events (BodyOutcome.raises e)
        = [CnEvent.openConn, CnEvent.getCursor, CnEvent.closeConn,
            CnEvent.reraise e] ∧
      CnEvent.execCommit ∉ open_cursor_events (BodyOutcome.raises e) := by
  refine ⟨?_, rfl, ?_⟩
  · intro b
    cases b <;> simp [open_cursor_events]
  · intro e
    exact ⟨rfl, by simp [open_cursor_events]⟩

/-- C9 counterexample: on non-Windows with an empty username the ODBC string
is still the DSN string with (empty) UID/PWD fields — it is not a
Trusted_Connection (integrated authentication) string, refuting the claim
that an empty username always produces one. -/
theorem c9_counterexample :
    (⟨"srv", "db", "", ""⟩ : SqlCnHandler).username = "" ∧
    sql_cn_str false ⟨"srv", "db", "", ""⟩
      = "DSN=srv; DATABASE=db; UID=; PWD=" ∧
    ¬ ("Trusted_Connection".data
        <:+: (sql_cn_str false ⟨"srv", "db", "", ""⟩).data) := by
  refine ⟨rfl, by decide, by decide⟩

/-- C9 (amended): the ODBC dialect branches on the host OS — DSN-based off
Windows, `DRIVER={SQL Server}`-based on Windows — and only the Windows form
further branches on the username: UID/PWD when it is non-empty,
Trusted_Connection when it is empty; the non-Windows DSN form always carries
UID/PWD fields (possibly empty).  The Postgres dialect always builds the
single `dbname=%s host='%s' user=%s` form. -/
theorem c9_cn_str_forms (h : SqlCnHandler) (dbname host user : String) :
    sql_cn_str false h
      = "DSN=" ++ h.server ++ "; DATABASE=" ++ h.dbname ++ "; UID="
        ++ h.username ++ "; PWD=" ++ h.password ∧
    (h.username ≠ "" →
      sql_cn_str true h
        = "DRIVER=\x7bSQL Server\x7d; SERVER=" ++ h.server ++ "; DATABASE="
          ++ h.dbname ++ "; UID=" ++ h.username ++ "; PWD=" ++ h.password) ∧
    (h.username = "" →
      sql_cn_str true h
        = "DRIVER=\x7bSQL Server\x7d; SERVER=" ++ h.server ++ "; DATABASE="
          ++ h.dbname ++ "; Trusted_Connection=yes;") ∧
    pg_cn_str dbname host user
      = "dbname=" ++ dbname ++ " host=" ++ squote ++ host ++ squote
        ++ " user=" ++ user := by
  refine ⟨rfl, ?_, ?_, rfl⟩
  · intro hu
    simp [sql_cn_str, sql_windows_cn_str, hu]
  · intro hu
    simp [sql_cn_str, sql_windows_cn_str, hu]

theorem c9_witness :
    sql_cn_str true ⟨"s", "d", "u", "p"⟩
      = "DRIVER=\x7bSQL Server\x7d; SERVER=s; DATABASE=d; UID=u; PWD=p" ∧
    sql_cn_str true ⟨"s", "d", "", "p"⟩
      = "DRIVER=\x7bSQL Server\x7d; SERVER=s; DATABASE=d; Trusted_Connection=yes;" := by
  have h1 := (c9_cn_str_forms ⟨"s", "d", "u", "p"⟩ "x" "y" "z").2.1 (by decide)
  have h2 := (c9_cn_str_forms ⟨"s", "d", "", "p"⟩ "x" "y" "z").2.2.1 rfl
  exact ⟨h1.trans (by decide), h2.trans (by decide)⟩

/-- C10: an empty row list with column names and no explicit
`max_rows_per_insert` makes the computed per-job budget 0, hence the outer
chunk size 0, and the dispatcher's progress computation
`len(data)/chunksize` raises `ZeroDivisionError` instead of completing as a
no-op. -/
theorem c10_empty_rowlist_divzero (cpu : Nat) (cols : List String) :
    default_max_rows none 0 (default_njobs none cpu) = 0 ∧
    sql_insert_run (PyData.pylist []) (some cols) none none cpu
      = Except.error PyError.zeroDivisionError := by
  have h0 : default_max_rows none 0 (default_njobs none cpu) = 0 := by
    simp [default_max_rows]
  constructor
  · exact h0
  · show insert_list_run ([] : List (List PyVal)) (default_njobs none cpu)
      (default_max_rows none 0 (default_njobs none cpu))
      = Except.error PyError.zeroDivisionError
    rw [h0]
    simp only [insert_list_run, Nat.zero_mul, pyDiv, if_pos rfl]
    rfl

end Database
